import Mathlib

/-!
Shallow embedding of `src/main.go` of the zabbix-config export utility.

The program decodes JSON-RPC responses into untyped values
(`interface\x7b\x7d` in Go, here the inductive `Json`), projects them with
type assertions into the structs `Host`, `Group`, `Template`, `Interface`,
`Metric`, `Trigger`, and writes per-host files.  A failed Go type
assertion panics; here every projection returns `Option`, with `none`
standing for a runtime panic.  The top-level control flow is embedded as
a function from the remote responses (the "world") to the list of
observable side effects (remote calls, log lines, directory creations,
file writes) together with the process outcome (normal exit, `log.Fatalf`
termination, or a panic).
-/

namespace ZbxExport

/-- Untyped decoded JSON value, as produced by Go's `json.Unmarshal` into
an empty interface.  `null` also stands for the nil interface obtained
from a missing object key. -/
inductive Json where
  | null : Json
  | str : String → Json
  | num : Int → Json
  | bool : Bool → Json
  | arr : List Json → Json
  | obj : List (String × Json) → Json

/-- Go map lookup `data[key]` on a decoded JSON object: `none` when the
key is absent (the nil interface in Go). -/
def jlookup (d : List (String × Json)) (key : String) : Option Json :=
  match d with
  | [] => none
  | (k, v) :: rest => if k = key then some v else jlookup rest key

/-- Go type assertion `v.(string)`: succeeds only on a string value; on
anything else (including the nil interface from a missing key) the
unchecked form panics, modelled by `none`. -/
def asString : Option Json → Option String
  | some (Json.str s) => some s
  | _ => none

/-- Go type assertion `v.([]interface\x7b\x7d)`. -/
def asArr : Option Json → Option (List Json)
  | some (Json.arr xs) => some xs
  | _ => none

/-- Go type assertion `v.(map[string]interface\x7b\x7d)`. -/
def asObj : Option Json → Option (List (String × Json))
  | some (Json.obj fields) => some fields
  | _ => none

/-- A Go `for ... range` loop that projects every element of a decoded
slice, propagating a panic (`none`) from any element; the projected
elements are accumulated in order. -/
def optionMapList {α β : Type} (f : α → Option β) : List α → Option (List β)
  | [] => some []
  | a :: rest =>
    match f a with
    | none => none
    | some b =>
      match optionMapList f rest with
      | none => none
      | some bs => some (b :: bs)

/-- `ZabbixError` struct of `src/main.go`. -/
structure ZabbixError where
  code : Int
  message : String
  data : String

/-- `ZabbixResponse` struct of `src/main.go`; the `Result` field is
decoded untyped (`interface\x7b\x7d`), hence `Json` here. -/
structure ZabbixResponse where
  jsonrpc : String
  result : Json
  error : ZabbixError
  id : Int

/-- `Group` struct. -/
structure Group where
  groupID : String
  name : String
deriving Repr, DecidableEq

/-- `Template` struct. -/
structure Template where
  templateID : String
  name : String
deriving Repr, DecidableEq

/-- `Interface` struct. -/
structure Interface where
  interfaceID : String
  ipAddress : String
  port : String
  type : String
deriving Repr, DecidableEq

/-- `Host` struct (XML tags: hostid, name, ip, status, availability,
notes with omitempty, nested groups/templates/interfaces lists). -/
structure Host where
  hostID : String
  hostName : String
  ipAddress : String
  status : String
  availability : String
  notes : String
  groups : List Group
  templates : List Template
  interfaces : List Interface
deriving Repr, DecidableEq

/-- `Metric` struct (JSON tags itemid, name, key, value). -/
structure Metric where
  itemID : String
  name : String
  key : String
  value : String
deriving Repr, DecidableEq

/-- `Trigger` struct (JSON tags triggerid, description, priority, status). -/
structure Trigger where
  triggerID : String
  description : String
  priority : String
  status : String
deriving Repr, DecidableEq

/-- Lines 184-189 of `src/main.go`: `availability := "Unknown"` then two
`if` branches, each performing the unchecked assertion
`data["available"].(string)`.  When the flag is not a string (or the key
is absent) the assertion panics: `none`. -/
def availabilityOf (data : List (String × Json)) : Option String :=
  match asString (jlookup data "available") with
  | none => none
  | some s =>
    some (if s = "1" then "Available"
          else if s = "0" then "Unavailable"
          else "Unknown")

/-- Per-group projection inside the `groups` loop (lines 204-210):
unchecked assertions on the element map and on `groupid`/`name`. -/
def projectGroup (g : Json) : Option Group := do
  let gd ← asObj (some g)
  let gid ← asString (jlookup gd "groupid")
  let nm ← asString (jlookup gd "name")
  pure ⟨gid, nm⟩

/-- Per-template projection inside the `parentTemplates` loop
(lines 214-220). -/
def projectTemplate (t : Json) : Option Template := do
  let td ← asObj (some t)
  let tid ← asString (jlookup td "templateid")
  let nm ← asString (jlookup td "name")
  pure ⟨tid, nm⟩

/-- The comma-ok `groups` block (lines 203-211): when the field is
absent or not a slice the block is skipped (empty list); otherwise each
element is projected with unchecked assertions. -/
def projectGroupsField (j : Option Json) : Option (List Group) :=
  match asArr j with
  | none => some []
  | some gs => optionMapList projectGroup gs

/-- The comma-ok `parentTemplates` block (lines 213-221). -/
def projectTemplatesField (j : Option Json) : Option (List Template) :=
  match asArr j with
  | none => some []
  | some ts => optionMapList projectTemplate ts

/-- Projection of one host record (lines 183-221 of `src/main.go`).
`hostid`, `name`, `status`, the first interface's `ip` and the
availability flag use unchecked assertions (panic on mismatch, `none`
here); `description`, `groups` and `parentTemplates` use the comma-ok
form, defaulting to empty.  The `Interfaces` slice of `Host` is never
populated. -/
def projectHostItem (item : Json) : Option Host := do
  let data ← asObj (some item)
  let avail ← availabilityOf data
  let hostid ← asString (jlookup data "hostid")
  let nm ← asString (jlookup data "name")
  let ifaces ← asArr (jlookup data "interfaces")
  let firstIf ← ifaces.head?
  let firstMap ← asObj (some firstIf)
  let ip ← asString (jlookup firstMap "ip")
  let st ← asString (jlookup data "status")
  let notes := (asString (jlookup data "description")).getD ""
  let groups ← projectGroupsField (jlookup data "groups")
  let templates ← projectTemplatesField (jlookup data "parentTemplates")
  pure ⟨hostid, nm, ip, st, avail, notes, groups, templates, []⟩

/-- Per-item metric projection (lines 266-272): unchecked assertions on
the element map and on `itemid`/`name`/`key_`/`lastvalue`. -/
def projectMetric (item : Json) : Option Metric := do
  let d ← asObj (some item)
  let itemid ← asString (jlookup d "itemid")
  let nm ← asString (jlookup d "name")
  let key ← asString (jlookup d "key_")
  let lastvalue ← asString (jlookup d "lastvalue")
  pure ⟨itemid, nm, key, lastvalue⟩

/-- `getStringFromMap` (lines 335-342 of `src/main.go`): comma-ok lookup
and comma-ok string assertion, empty string on either failure.  Total. -/
def getStringFromMap (data : List (String × Json)) (key : String) : String :=
  match jlookup data key with
  | some v =>
    match v with
    | Json.str s => s
    | _ => ""
  | none => ""

/-- Per-trigger projection (lines 318-325): unchecked assertion on the
element map, then defensive `getStringFromMap` for every field. -/
def projectTrigger (t : Json) : Option Trigger := do
  let d ← asObj (some t)
  pure ⟨getStringFromMap d "triggerid", getStringFromMap d "description",
        getStringFromMap d "priority", getStringFromMap d "status"⟩

/-- Outcome of one HTTP exchange as the program observes it: either the
`Post` call returns a non-nil error (transport failure), or a body is
received, which `json.Unmarshal` either fails on (`none`) or decodes to a
`ZabbixResponse`.  `raw` is the body text, used only for the trigger
fetcher's diagnostic line. -/
inductive HttpOutcome where
  | transportError : HttpOutcome
  | response : String → Option ZabbixResponse → HttpOutcome

/-- Observable side effects of the run, in order of occurrence:
an HTTP call with a given JSON-RPC method, a `log` line, an `fmt` line,
a `MkdirAll`, and a file write. -/
inductive Effect where
  | call : String → Effect
  | log : String → Effect
  | say : String → Effect
  | mkdirAll : String → Effect
  | writeFile : String → Effect
deriving Repr, DecidableEq

/-- Outcome of the whole process: fell through to the end of `main`
(`ok`), terminated by `log.Fatalf` with a message, or crashed on a
runtime panic from a failed type assertion. -/
inductive Outcome where
  | ok : Outcome
  | fatal : String → Outcome
  | crash : Outcome
deriving Repr, DecidableEq

/-- Outcome of one of the per-host helper functions: it either returns
(normally or early) so the run continues, or it panics. -/
inductive SubOutcome where
  | cont : SubOutcome
  | crash : SubOutcome
deriving Repr, DecidableEq

/-- The remote world one run interacts with: the `host.get` response and,
for the i-th enumerated host, its `item.get` and `trigger.get`
responses. -/
structure World where
  hostResp : HttpOutcome
  metricResp : Nat → HttpOutcome
  trigResp : Nat → HttpOutcome

/-- The file paths written when the run saves data: writes themselves are
modelled as always succeeding (a failing `os.WriteFile` would be
`log.Fatalf`, a path this model does not need). -/
def filesWritten (effs : List Effect) : List String :=
  effs.filterMap fun e =>
    match e with
    | Effect.writeFile p => some p
    | _ => none

/-- The directories passed to `os.MkdirAll` during the run. -/
def dirsMade (effs : List Effect) : List String :=
  effs.filterMap fun e =>
    match e with
    | Effect.mkdirAll p => some p
    | _ => none

/-- `exportMetricsForHost` (lines 237-278 of `src/main.go`): transport or
decode failure is logged and the function returns early; otherwise
`result.Result.([]interface\x7b\x7d)` is an unchecked assertion that
panics on a nil (null) or non-array result; each item is projected with
unchecked assertions; on success `metrics.json` is always written, even
for an empty item list. -/
def exportMetricsForHost (resp : HttpOutcome) (hostDir hostID : String) :
    List Effect × SubOutcome :=
  match resp with
  | HttpOutcome.transportError =>
    ([Effect.call "item.get",
      Effect.log ("Ошибка при получении метрик для хоста " ++ hostID)],
     SubOutcome.cont)
  | HttpOutcome.response _ none =>
    ([Effect.call "item.get",
      Effect.log ("Ошибка при разборе метрик хоста " ++ hostID)],
     SubOutcome.cont)
  | HttpOutcome.response _ (some r) =>
    match asArr (some r.result) with
    | none => ([Effect.call "item.get"], SubOutcome.crash)
    | some items =>
      match optionMapList projectMetric items with
      | none => ([Effect.call "item.get"], SubOutcome.crash)
      | some _ =>
        ([Effect.call "item.get",
          Effect.writeFile (hostDir ++ "/metrics.json"),
          Effect.say ("Метрики успешно экспортированы для хоста " ++ hostID)],
         SubOutcome.cont)

/-- `exportTriggersForHost` (lines 280-332 of `src/main.go`): transport
failure is logged and returns early; otherwise the raw body is echoed as
a diagnostic before decoding; decode failure is logged and returns; a nil
result is logged as "no triggers" and returns without writing; otherwise
the unchecked array assertion and the per-trigger projection run, and on
success `triggers.json` is written. -/
def exportTriggersForHost (resp : HttpOutcome) (hostDir hostID : String) :
    List Effect × SubOutcome :=
  match resp with
  | HttpOutcome.transportError =>
    ([Effect.call "trigger.get",
      Effect.log ("Ошибка при запросе триггеров для хоста " ++ hostID)],
     SubOutcome.cont)
  | HttpOutcome.response raw none =>
    ([Effect.call "trigger.get",
      Effect.say ("Ответ от API для триггеров хоста " ++ hostID ++ ": " ++ raw),
      Effect.log ("Ошибка при разборе ответа триггеров для хоста " ++ hostID)],
     SubOutcome.cont)
  | HttpOutcome.response raw (some r) =>
    let diag := Effect.say ("Ответ от API для триггеров хоста " ++ hostID ++ ": " ++ raw)
    match r.result with
    | Json.null =>
      ([Effect.call "trigger.get", diag,
        Effect.log ("Нет триггеров для хоста " ++ hostID ++ ".")],
       SubOutcome.cont)
    | Json.arr items =>
      match optionMapList projectTrigger items with
      | none => ([Effect.call "trigger.get", diag], SubOutcome.crash)
      | some _ =>
        ([Effect.call "trigger.get", diag,
          Effect.writeFile (hostDir ++ "/triggers.json"),
          Effect.say ("Триггеры успешно экспортированы для хоста " ++ hostID)],
         SubOutcome.cont)
    | _ => ([Effect.call "trigger.get", diag], SubOutcome.crash)

/-- The per-host body of the enumeration loop (lines 182-233): project
the record (unchecked assertions may panic), create the host directory,
write `host.xml`, then fetch and write metrics and triggers. -/
def processHost (w : World) (exportDir : String) (idx : Nat) (item : Json) :
    List Effect × SubOutcome :=
  match projectHostItem item with
  | none => ([], SubOutcome.crash)
  | some host =>
    let hostDir := exportDir ++ "/hosts/" ++ host.hostName
    let effs1 := [Effect.mkdirAll hostDir, Effect.writeFile (hostDir ++ "/host.xml")]
    let m := exportMetricsForHost (w.metricResp idx) hostDir host.hostID
    match m.2 with
    | SubOutcome.crash => (effs1 ++ m.1, SubOutcome.crash)
    | SubOutcome.cont =>
      let t := exportTriggersForHost (w.trigResp idx) hostDir host.hostID
      (effs1 ++ m.1 ++ t.1, t.2)

/-- The enumeration loop over the decoded host list, host `idx` paired
with the `idx`-th metric and trigger responses of the world. -/
def loopHosts (w : World) (exportDir : String) :
    Nat → List Json → List Effect × SubOutcome
  | _, [] => ([], SubOutcome.cont)
  | idx, item :: rest =>
    let p := processHost w exportDir idx item
    match p.2 with
    | SubOutcome.crash => (p.1, SubOutcome.crash)
    | SubOutcome.cont =>
      let q := loopHosts w exportDir (idx + 1) rest
      (p.1 ++ q.1, q.2)

/-- `exportHostsWithDetails` (lines 150-235 of `src/main.go`): one
`host.get` call; transport or decode failure is `log.Fatalf`; a nil or
empty-array result logs "no hosts" and returns normally; a non-nil
non-array result panics on the unchecked assertion in the length check;
otherwise the per-host loop runs and a final completion line is
printed. -/
def exportHostsWithDetails (w : World) (exportDir : String) :
    List Effect × Outcome :=
  match w.hostResp with
  | HttpOutcome.transportError =>
    ([Effect.call "host.get"],
     Outcome.fatal "Ошибка при запросе к Zabbix API")
  | HttpOutcome.response _ none =>
    ([Effect.call "host.get"],
     Outcome.fatal "Ошибка при разборе ответа от Zabbix API")
  | HttpOutcome.response _ (some r) =>
    match r.result with
    | Json.null =>
      ([Effect.call "host.get", Effect.log "Нет доступных хостов для экспорта."],
       Outcome.ok)
    | Json.arr [] =>
      ([Effect.call "host.get", Effect.log "Нет доступных хостов для экспорта."],
       Outcome.ok)
    | Json.arr items =>
      let l := loopHosts w exportDir 0 items
      match l.2 with
      | SubOutcome.crash => (Effect.call "host.get" :: l.1, Outcome.crash)
      | SubOutcome.cont =>
        (Effect.call "host.get" :: l.1 ++ [Effect.say "Экспорт хостов завершен."],
         Outcome.ok)
    | _ => ([Effect.call "host.get"], Outcome.crash)

/-- `main` (lines 99-148 of `src/main.go`): load `.env` (fatal on
failure), one `user.login` call (transport and decode failures fatal), a
non-zero envelope error code is fatal with the carried message, a
missing/non-string/empty token is fatal, otherwise the export runs and a
final completion line is printed. -/
def mainRun (envLoadOk : Bool) (authResp : HttpOutcome) (w : World)
    (exportDir : String) : List Effect × Outcome :=
  if !envLoadOk then ([], Outcome.fatal "Ошибка загрузки .env файла")
  else
    match authResp with
    | HttpOutcome.transportError =>
      ([Effect.call "user.login"],
       Outcome.fatal "Ошибка при запросе к Zabbix API")
    | HttpOutcome.response _ none =>
      ([Effect.call "user.login"],
       Outcome.fatal "Ошибка при разборе ответа от Zabbix API")
    | HttpOutcome.response _ (some auth) =>
      if auth.error.code ≠ 0 then
        ([Effect.call "user.login"],
         Outcome.fatal ("Ошибка аутентификации: " ++ auth.error.message))
      else
        match auth.result with
        | Json.str token =>
          if token = "" then
            ([Effect.call "user.login"],
             Outcome.fatal "Ошибка: Токен аутентификации не получен")
          else
            let e := exportHostsWithDetails w exportDir
            match e.2 with
            | Outcome.ok =>
              (Effect.call "user.login" :: e.1 ++ [Effect.say "Экспорт данных завершен."],
               Outcome.ok)
            | o => (Effect.call "user.login" :: e.1, o)
        | _ =>
          ([Effect.call "user.login"],
           Outcome.fatal "Ошибка: Токен аутентификации не получен")

/-- An XML element tree: the document level at which `xml.MarshalIndent`
renders a `Host` (indentation and the `xml.Header` declaration carry no
data and are not modelled). -/
inductive Xml where
  | elem : String → List Xml → Xml
  | text : String → Xml

/-- Rendering of a `Group` by `saveToXML`, as directed by the struct tags
`groupid` and `name` under the wrapper path `groups>group`. -/
def Group.toXml (g : Group) : Xml :=
  Xml.elem "group" [Xml.elem "groupid" [Xml.text g.groupID],
                    Xml.elem "name" [Xml.text g.name]]

/-- Rendering of a `Template` under `templates>template`. -/
def Template.toXml (t : Template) : Xml :=
  Xml.elem "template" [Xml.elem "templateid" [Xml.text t.templateID],
                       Xml.elem "name" [Xml.text t.name]]

/-- Rendering of an `Interface` under `interfaces>interface`. -/
def Interface.toXml (i : Interface) : Xml :=
  Xml.elem "interface" [Xml.elem "interfaceid" [Xml.text i.interfaceID],
                        Xml.elem "ip" [Xml.text i.ipAddress],
                        Xml.elem "port" [Xml.text i.port],
                        Xml.elem "type" [Xml.text i.type]]

/-- Rendering of a `Host` by `saveToXML` (lines 73-84 of `src/main.go`),
as directed by the `xml:"..."` struct tags of lines 28-39: element name
`host`, one child element per field in declaration order, `notes`
omitted when empty (`omitempty`), and the three slices nested under
their wrapper elements (`groups>group` etc.). -/
def Host.toXml (h : Host) : Xml :=
  Xml.elem "host"
    ([Xml.elem "hostid" [Xml.text h.hostID],
      Xml.elem "name" [Xml.text h.hostName],
      Xml.elem "ip" [Xml.text h.ipAddress],
      Xml.elem "status" [Xml.text h.status],
      Xml.elem "availability" [Xml.text h.availability]]
     ++ (if h.notes = "" then [] else [Xml.elem "notes" [Xml.text h.notes]])
     ++ [Xml.elem "groups" (h.groups.map Group.toXml),
         Xml.elem "templates" (h.templates.map Template.toXml),
         Xml.elem "interfaces" (h.interfaces.map Interface.toXml)])

/-- First child element with the given tag, as an XML unmarshaller
resolves a field. -/
def findElem (tag : String) : List Xml → Option Xml
  | [] => none
  | Xml.elem t ch :: rest =>
    if t = tag then some (Xml.elem t ch) else findElem tag rest
  | Xml.text _ :: rest => findElem tag rest

/-- Character data of an element holding a single text node. -/
def textOf : Xml → Option String
  | Xml.elem _ [Xml.text s] => some s
  | Xml.elem _ [] => some ""
  | _ => none

/-- Character data of the child element with the given tag. -/
def childText (tag : String) (ch : List Xml) : Option String :=
  match findElem tag ch with
  | some e => textOf e
  | none => none

/-- Child list of the wrapper element with the given tag. -/
def childList (tag : String) (ch : List Xml) : Option (List Xml) :=
  match findElem tag ch with
  | some (Xml.elem _ inner) => some inner
  | _ => none

/-- Modelled from the spec: the repository has no XML reader; §8 of the
spec requires that "a Host ... written to its file and parsed back by
the respective document reader must reproduce the original field values
exactly", so the reader is the tag-directed inverse of the writer. -/
def Group.ofXml : Xml → Option Group
  | Xml.elem "group" ch => do
    let gid ← childText "groupid" ch
    let nm ← childText "name" ch
    pure ⟨gid, nm⟩
  | _ => none

/-- Modelled from the spec: tag-directed reader for `Template` (see
`Group.ofXml`). -/
def Template.ofXml : Xml → Option Template
  | Xml.elem "template" ch => do
    let tid ← childText "templateid" ch
    let nm ← childText "name" ch
    pure ⟨tid, nm⟩
  | _ => none

/-- Modelled from the spec: tag-directed reader for `Interface` (see
`Group.ofXml`). -/
def Interface.ofXml : Xml → Option Interface
  | Xml.elem "interface" ch => do
    let iid ← childText "interfaceid" ch
    let ip ← childText "ip" ch
    let port ← childText "port" ch
    let ty ← childText "type" ch
    pure ⟨iid, ip, port, ty⟩
  | _ => none

/-- Modelled from the spec: tag-directed reader for `Host`, the inverse
required by the round-trip property of §8; an absent `notes` element
(the `omitempty` case) reads back as the empty string, matching Go's
zero value for an absent optional field. -/
def Host.ofXml : Xml → Option Host
  | Xml.elem "host" ch => do
    let hostid ← childText "hostid" ch
    let nm ← childText "name" ch
    let ip ← childText "ip" ch
    let st ← childText "status" ch
    let avail ← childText "availability" ch
    let notes ← match findElem "notes" ch with
      | none => pure ""
      | some e => textOf e
    let gs ← childList "groups" ch
    let groups ← optionMapList Group.ofXml gs
    let ts ← childList "templates" ch
    let templates ← optionMapList Template.ofXml ts
    let ifs ← childList "interfaces" ch
    let interfaces ← optionMapList Interface.ofXml ifs
    pure ⟨hostid, nm, ip, st, avail, notes, groups, templates, interfaces⟩
  | _ => none

/-- Rendering of one `Metric` by `saveToJSON` (lines 87-97), as directed
by the `json:"..."` tags of lines 58-63. -/
def Metric.toJson (m : Metric) : Json :=
  Json.obj [("itemid", Json.str m.itemID), ("name", Json.str m.name),
            ("key", Json.str m.key), ("value", Json.str m.value)]

/-- Rendering of one `Trigger` by `saveToJSON`, as directed by the tags
of lines 65-70. -/
def Trigger.toJson (t : Trigger) : Json :=
  Json.obj [("triggerid", Json.str t.triggerID),
            ("description", Json.str t.description),
            ("priority", Json.str t.priority),
            ("status", Json.str t.status)]

/-- Rendering of the flat metric array written to `metrics.json`. -/
def metricsToJson (ms : List Metric) : Json :=
  Json.arr (ms.map Metric.toJson)

/-- Rendering of the flat trigger array written to `triggers.json`. -/
def triggersToJson (ts : List Trigger) : Json :=
  Json.arr (ts.map Trigger.toJson)

/-- Modelled from the spec: tag-directed JSON reader for `Metric` (the
repository has no reader; see `Group.ofXml`). -/
def Metric.ofJson : Json → Option Metric
  | Json.obj f => do
    let itemid ← asString (jlookup f "itemid")
    let nm ← asString (jlookup f "name")
    let key ← asString (jlookup f "key")
    let v ← asString (jlookup f "value")
    pure ⟨itemid, nm, key, v⟩
  | _ => none

/-- Modelled from the spec: tag-directed JSON reader for `Trigger`. -/
def Trigger.ofJson : Json → Option Trigger
  | Json.obj f => do
    let tid ← asString (jlookup f "triggerid")
    let d ← asString (jlookup f "description")
    let p ← asString (jlookup f "priority")
    let st ← asString (jlookup f "status")
    pure ⟨tid, d, p, st⟩
  | _ => none

/-- Modelled from the spec: reader for the flat metric array file. -/
def metricsOfJson : Json → Option (List Metric)
  | Json.arr xs => optionMapList Metric.ofJson xs
  | _ => none

/-- Modelled from the spec: reader for the flat trigger array file. -/
def triggersOfJson : Json → Option (List Trigger)
  | Json.arr xs => optionMapList Trigger.ofJson xs
  | _ => none

/-- A world whose every exchange fails at transport; used to instantiate
theorems whose conclusion does not depend on the world. -/
def nullWorld : World :=
  ⟨HttpOutcome.transportError, fun _ => HttpOutcome.transportError,
   fun _ => HttpOutcome.transportError⟩

/-- C1, counterexample: the claim says an absent availability flag yields
the label "Unknown", but on a record without the `available` key the
unchecked assertion `data["available"].(string)` panics (modelled by
`none`): no label is derived at all. -/
theorem C1_absent_flag_counterexample :
    availabilityOf [("hostid", Json.str "10084")] = none ∧
    ¬ availabilityOf [("hostid", Json.str "10084")] = some "Unknown" := by
  constructor
  · rfl
  · intro h
    simp [availabilityOf, jlookup, asString] at h

/-- C1, amended: when the raw availability flag is present and is a
string, the derived label is "Available" for "1", "Unavailable" for "0",
and "Unknown" for any other string; when the flag is absent or not a
string the derivation panics instead of producing a label. -/
theorem C1_availability_amended (d : List (String × Json)) :
    availabilityOf d =
      (match jlookup d "available" with
       | some (Json.str s) =>
         some (if s = "1" then "Available"
               else if s = "0" then "Unavailable"
               else "Unknown")
       | _ => none) := by
  cases h : jlookup d "available" with
  | none => simp [availabilityOf, asString, h]
  | some v => cases v <;> simp [availabilityOf, asString, h]

/-- C3: when the login response decodes with a non-zero error code, the
run terminates fatally emitting the carried error message; the trace
holds only the `user.login` call, so no host enumeration call, directory
creation or file write has happened. -/
theorem C3_auth_error_fatal (raw : String) (auth : ZabbixResponse) (w : World)
    (exportDir : String) (h : auth.error.code ≠ 0) :
    mainRun true (HttpOutcome.response raw (some auth)) w exportDir =
      ([Effect.call "user.login"],
       Outcome.fatal ("Ошибка аутентификации: " ++ auth.error.message)) := by
  simp [mainRun, h]

/-- C3 witness: a login rejected with code 401 at a concrete world. -/
theorem C3_auth_error_fatal_witness :
    mainRun true
        (HttpOutcome.response "body"
          (some ⟨"2.0", Json.null, ⟨401, "Not authorized.", "login"⟩, 1⟩))
        nullWorld "export" =
      ([Effect.call "user.login"],
       Outcome.fatal ("Ошибка аутентификации: " ++ "Not authorized.")) :=
  C3_auth_error_fatal "body" ⟨"2.0", Json.null, ⟨401, "Not authorized.", "login"⟩, 1⟩
    nullWorld "export" (by decide)

/-- C5: a trigger fetch that decodes to a null result produces exactly
the call, the raw-body diagnostic and the "no triggers" log line, writes
no file, and returns `cont`: the loop proceeds to the next host with no
fatal error. -/
theorem C5_null_trigger_result (raw hostDir hostID : String) (r : ZabbixResponse)
    (h : r.result = Json.null) :
    exportTriggersForHost (HttpOutcome.response raw (some r)) hostDir hostID =
      ([Effect.call "trigger.get",
        Effect.say ("Ответ от API для триггеров хоста " ++ hostID ++ ": " ++ raw),
        Effect.log ("Нет триггеров для хоста " ++ hostID ++ ".")],
       SubOutcome.cont) := by
  simp [exportTriggersForHost, h]

/-- C5 witness: a concrete null-result trigger response. -/
theorem C5_null_trigger_result_witness :
    exportTriggersForHost
        (HttpOutcome.response "nullbody" (some ⟨"2.0", Json.null, ⟨0, "", ""⟩, 1⟩))
        "out/hosts/srv" "10084" =
      ([Effect.call "trigger.get",
        Effect.say ("Ответ от API для триггеров хоста " ++ "10084" ++ ": " ++ "nullbody"),
        Effect.log ("Нет триггеров для хоста " ++ "10084" ++ ".")],
       SubOutcome.cont) :=
  C5_null_trigger_result "nullbody" "out/hosts/srv" "10084"
    ⟨"2.0", Json.null, ⟨0, "", ""⟩, 1⟩ rfl

/-- C6: when host enumeration succeeds with a null or empty result list,
the run logs "no hosts", makes no directory, writes no file, and the
process reaches its normal end. -/
theorem C6_zero_hosts (w : World) (exportDir raw : String) (r : ZabbixResponse)
    (hw : w.hostResp = HttpOutcome.response raw (some r))
    (h : r.result = Json.null ∨ r.result = Json.arr []) :
    exportHostsWithDetails w exportDir =
      ([Effect.call "host.get", Effect.log "Нет доступных хостов для экспорта."],
       Outcome.ok) := by
  rcases h with h | h <;> simp [exportHostsWithDetails, hw, h]

/-- C6 witness: a concrete world returning an empty host array. -/
theorem C6_zero_hosts_witness :
    exportHostsWithDetails
        ⟨HttpOutcome.response "empty" (some ⟨"2.0", Json.arr [], ⟨0, "", ""⟩, 1⟩),
         fun _ => HttpOutcome.transportError, fun _ => HttpOutcome.transportError⟩
        "export" =
      ([Effect.call "host.get", Effect.log "Нет доступных хостов для экспорта."],
       Outcome.ok) :=
  C6_zero_hosts _ "export" "empty" ⟨"2.0", Json.arr [], ⟨0, "", ""⟩, 1⟩ rfl (Or.inr rfl)

/-- C8: the trigger projection is total on any record map — it never
panics — and each projected field is the looked-up value when that value
is a string, and the empty string when the key is missing or its value
is not a string. -/
theorem C8_defensive_trigger_fields (fields : List (String × Json)) (key : String) :
    (projectTrigger (Json.obj fields)).isSome = true ∧
    projectTrigger (Json.obj fields) =
      some ⟨getStringFromMap fields "triggerid", getStringFromMap fields "description",
            getStringFromMap fields "priority", getStringFromMap fields "status"⟩ ∧
    getStringFromMap fields key =
      (match jlookup fields key with
       | some (Json.str s) => s
       | _ => "") := by
  refine ⟨rfl, rfl, ?_⟩
  unfold getStringFromMap
  cases jlookup fields key with
  | none => rfl
  | some v => cases v <;> rfl

/-- C10: on a metric response that decodes with a null result the metric
fetcher panics (the unchecked assertion `result.Result.([]interface\x7b\x7d)`
on a nil interface), writing nothing, and the panic propagates out of the
per-host step, crashing the process; the trigger fetcher on the very same
response tests for nil and continues non-fatally. -/
theorem C10_null_metric_result_crashes (raw hostDir hostID : String)
    (r : ZabbixResponse) (h : r.result = Json.null) :
    (exportMetricsForHost (HttpOutcome.response raw (some r)) hostDir hostID).2 =
      SubOutcome.crash ∧
    filesWritten
      (exportMetricsForHost (HttpOutcome.response raw (some r)) hostDir hostID).1 = [] ∧
    (exportTriggersForHost (HttpOutcome.response raw (some r)) hostDir hostID).2 =
      SubOutcome.cont ∧
    (∀ (w : World) (dir : String) (idx : Nat) (item : Json) (host : Host),
      projectHostItem item = some host →
      w.metricResp idx = HttpOutcome.response raw (some r) →
      (processHost w dir idx item).2 = SubOutcome.crash) := by
  refine ⟨by simp [exportMetricsForHost, h, asArr],
          by simp [exportMetricsForHost, h, asArr, filesWritten],
          by simp [exportTriggersForHost, h], ?_⟩
  intro w dir idx item host hp hm
  simp [processHost, hp, hm, exportMetricsForHost, h, asArr]

/-- A host record that projects successfully: availability flag "1", one
interface, no groups or templates. -/
def sampleHostItem : Json :=
  Json.obj [("available", Json.str "1"), ("hostid", Json.str "10084"),
            ("name", Json.str "alpha"), ("status", Json.str "0"),
            ("interfaces", Json.arr [Json.obj [("ip", Json.str "192.0.2.1")]])]

/-- The `Host` that `sampleHostItem` projects to. -/
def sampleHost : Host :=
  ⟨"10084", "alpha", "192.0.2.1", "0", "Available", "", [], [], []⟩

/-- A decoded response whose result field is null. -/
def nullResultResponse : ZabbixResponse := ⟨"2.0", Json.null, ⟨0, "", ""⟩, 1⟩

/-- C10 witness: a concrete null-result metric response crashes the
metric step and the whole per-host step, while the trigger step on the
same response continues. -/
theorem C10_null_metric_result_crashes_witness :
    (exportMetricsForHost (HttpOutcome.response "nul" (some nullResultResponse))
        "out/hosts/alpha" "10084").2 = SubOutcome.crash ∧
    (exportTriggersForHost (HttpOutcome.response "nul" (some nullResultResponse))
        "out/hosts/alpha" "10084").2 = SubOutcome.cont ∧
    (processHost
        ⟨HttpOutcome.transportError,
         fun _ => HttpOutcome.response "nul" (some nullResultResponse),
         fun _ => HttpOutcome.transportError⟩
        "out" 0 sampleHostItem).2 = SubOutcome.crash := by
  have H := C10_null_metric_result_crashes "nul" "out/hosts/alpha" "10084"
    nullResultResponse rfl
  exact ⟨H.1, H.2.2.1,
    H.2.2.2 _ "out" 0 sampleHostItem sampleHost rfl rfl⟩

/-- C7: whenever a host record carries an interface list whose first
element is a map with an `ip` string, and the record projects to a
`Host`, the projected primary IP address is that first interface's `ip`,
whatever the remaining interfaces are. -/
theorem C7_first_interface_ip (d : List (String × Json)) (host : Host)
    (firstMap : List (String × Json)) (rest : List Json) (ip : String)
    (hif : jlookup d "interfaces" = some (Json.arr (Json.obj firstMap :: rest)))
    (hip : jlookup firstMap "ip" = some (Json.str ip))
    (hp : projectHostItem (Json.obj d) = some host) :
    host.ipAddress = ip := by
  simp only [projectHostItem, asObj, Option.bind_eq_bind, Option.some_bind,
    hif, asArr, List.head?_cons, hip, asString] at hp
  simp only [Option.bind_eq_some] at hp
  obtain ⟨avail, -, hostid, -, nm, -, st, -, groups, -, templates, -, hfin⟩ := hp
  cases hfin
  rfl

/-- A host record with two interfaces, the scenario of the spec: the
second interface's `ip` differs from the first. -/
def twoIfaceRecord : List (String × Json) :=
  [("available", Json.str "0"), ("hostid", Json.str "10085"),
   ("name", Json.str "beta"), ("status", Json.str "1"),
   ("interfaces", Json.arr [Json.obj [("ip", Json.str "10.0.0.1")],
                            Json.obj [("ip", Json.str "10.0.0.2")]])]

/-- C7 witness: the two-interface record projects to a host whose
primary IP is the first interface's address, not the second's. -/
theorem C7_first_interface_ip_witness :
    (⟨"10085", "beta", "10.0.0.1", "1", "Unavailable", "", [], [], []⟩ : Host).ipAddress =
      "10.0.0.1" :=
  C7_first_interface_ip twoIfaceRecord
    ⟨"10085", "beta", "10.0.0.1", "1", "Unavailable", "", [], [], []⟩
    [("ip", Json.str "10.0.0.1")] [Json.obj [("ip", Json.str "10.0.0.2")]]
    "10.0.0.1" rfl rfl rfl

/-- Writing each element of a list and reading it back reproduces the
list, provided the element round trip holds. -/
theorem optionMapList_roundtrip {α β : Type} (f : α → β) (g : β → Option α)
    (hrt : ∀ a, g (f a) = some a) (l : List α) :
    optionMapList g (l.map f) = some l := by
  induction l with
  | nil => rfl
  | cons a rest ih => simp [optionMapList, hrt, ih]

/-- Round trip of one `Group` through its XML rendering. -/
theorem groupXml_roundtrip (g : Group) : Group.ofXml (Group.toXml g) = some g := rfl

/-- Round trip of one `Template` through its XML rendering. -/
theorem templateXml_roundtrip (t : Template) :
    Template.ofXml (Template.toXml t) = some t := rfl

/-- Round trip of one `Interface` through its XML rendering. -/
theorem interfaceXml_roundtrip (i : Interface) :
    Interface.ofXml (Interface.toXml i) = some i := rfl

/-- Round trip of a `Host` through its XML document: every field,
including an empty `notes` dropped by `omitempty`, reads back exactly. -/
theorem hostXml_roundtrip (h : Host) : Host.ofXml (Host.toXml h) = some h := by
  have hg := optionMapList_roundtrip Group.toXml Group.ofXml groupXml_roundtrip h.groups
  have ht := optionMapList_roundtrip Template.toXml Template.ofXml
    templateXml_roundtrip h.templates
  have hi := optionMapList_roundtrip Interface.toXml Interface.ofXml
    interfaceXml_roundtrip h.interfaces
  obtain ⟨f1, f2, f3, f4, f5, f6, f7, f8, f9⟩ := h
  rcases eq_or_ne f6 "" with hn | hn
  · simp_all [Host.toXml, Host.ofXml, childText, childList, findElem, textOf]
  · simp_all [Host.toXml, Host.ofXml, childText, childList, findElem, textOf]

/-- Round trip of one `Metric` through its JSON rendering. -/
theorem metricJson_roundtrip (m : Metric) : Metric.ofJson (Metric.toJson m) = some m := rfl

/-- Round trip of one `Trigger` through its JSON rendering. -/
theorem triggerJson_roundtrip (t : Trigger) :
    Trigger.ofJson (Trigger.toJson t) = some t := rfl

/-- Round trip of the flat metric array file. -/
theorem metricsOfJson_toJson (ms : List Metric) :
    metricsOfJson (metricsToJson ms) = some ms := by
  simp [metricsToJson, metricsOfJson,
    optionMapList_roundtrip Metric.toJson Metric.ofJson metricJson_roundtrip]

/-- Round trip of the flat trigger array file. -/
theorem triggersOfJson_toJson (ts : List Trigger) :
    triggersOfJson (triggersToJson ts) = some ts := by
  simp [triggersToJson, triggersOfJson,
    optionMapList_roundtrip Trigger.toJson Trigger.ofJson triggerJson_roundtrip]

/-- C9: the XML rendering of a `Host` and the JSON renderings of the
metric and trigger arrays are lossless — parsing each written document
back with the matching reader reproduces the original field values
exactly. -/
theorem C9_serialization_roundtrip (h : Host) (ms : List Metric) (ts : List Trigger) :
    Host.ofXml (Host.toXml h) = some h ∧
    metricsOfJson (metricsToJson ms) = some ms ∧
    triggersOfJson (triggersToJson ts) = some ts :=
  ⟨hostXml_roundtrip h, metricsOfJson_toJson ms, triggersOfJson_toJson ts⟩

/-- Appending to a common prefix is injective on strings. -/
theorem string_append_left_cancel {a b c : String} (h : a ++ b = a ++ c) : b = c := by
  have hd : (a ++ b).data = (a ++ c).data := by rw [h]
  simp [String.data_append] at hd
  exact String.ext hd

/-- Distinct suffixes after a common prefix give distinct strings. -/
theorem string_append_ne {a b c : String} (h : b ≠ c) : a ++ b ≠ a ++ c :=
  fun he => h (string_append_left_cancel he)

/-- The trigger fetcher writes at most its own `triggers.json` file,
whatever the response. -/
theorem exportTriggersForHost_files (resp : HttpOutcome) (hostDir hostID : String) :
    filesWritten (exportTriggersForHost resp hostDir hostID).1 = [] ∨
    filesWritten (exportTriggersForHost resp hostDir hostID).1 =
      [hostDir ++ "/triggers.json"] := by
  cases resp with
  | transportError => left; rfl
  | response raw dec =>
    cases dec with
    | none => left; rfl
    | some r =>
      cases hres : r.result with
      | null => left; simp [exportTriggersForHost, hres, filesWritten]
      | arr items =>
        cases hpt : optionMapList projectTrigger items with
        | none => left; simp [exportTriggersForHost, hres, hpt, filesWritten]
        | some ts => right; simp [exportTriggersForHost, hres, hpt, filesWritten]
      | str s => left; simp [exportTriggersForHost, hres, filesWritten]
      | num n => left; simp [exportTriggersForHost, hres, filesWritten]
      | bool b => left; simp [exportTriggersForHost, hres, filesWritten]
      | obj fields => left; simp [exportTriggersForHost, hres, filesWritten]

/-- C4: when the metric fetch for a host fails at transport or at JSON
decode, the failure is logged and the fetcher returns `cont` without
writing; within the per-host step no `metrics.json` appears among the
written files, the trigger fetch still runs (its effects and outcome are
those of the trigger step), and a `cont` trigger step lets the loop
proceed to all subsequent hosts. -/
theorem C4_metric_failure_nonfatal (w : World) (dir : String) (idx : Nat)
    (item : Json) (host : Host)
    (hp : projectHostItem item = some host)
    (hm : w.metricResp idx = HttpOutcome.transportError ∨
          ∃ raw, w.metricResp idx = HttpOutcome.response raw none) :
    (∃ msg, Effect.log msg ∈
        (exportMetricsForHost (w.metricResp idx)
          (dir ++ "/hosts/" ++ host.hostName) host.hostID).1) ∧
    (exportMetricsForHost (w.metricResp idx)
        (dir ++ "/hosts/" ++ host.hostName) host.hostID).2 = SubOutcome.cont ∧
    (dir ++ "/hosts/" ++ host.hostName ++ "/metrics.json") ∉
        filesWritten (processHost w dir idx item).1 ∧
    processHost w dir idx item =
      ([Effect.mkdirAll (dir ++ "/hosts/" ++ host.hostName),
        Effect.writeFile (dir ++ "/hosts/" ++ host.hostName ++ "/host.xml")] ++
       (exportMetricsForHost (w.metricResp idx)
          (dir ++ "/hosts/" ++ host.hostName) host.hostID).1 ++
       (exportTriggersForHost (w.trigResp idx)
          (dir ++ "/hosts/" ++ host.hostName) host.hostID).1,
       (exportTriggersForHost (w.trigResp idx)
          (dir ++ "/hosts/" ++ host.hostName) host.hostID).2) ∧
    (∀ rest : List Json,
      (exportTriggersForHost (w.trigResp idx)
          (dir ++ "/hosts/" ++ host.hostName) host.hostID).2 = SubOutcome.cont →
      loopHosts w dir idx (item :: rest) =
        ((processHost w dir idx item).1 ++ (loopHosts w dir (idx + 1) rest).1,
         (loopHosts w dir (idx + 1) rest).2)) := by
  have hmfx :
      exportMetricsForHost (w.metricResp idx)
          (dir ++ "/hosts/" ++ host.hostName) host.hostID =
        ((exportMetricsForHost (w.metricResp idx)
            (dir ++ "/hosts/" ++ host.hostName) host.hostID).1, SubOutcome.cont) ∧
      (∃ msg, Effect.log msg ∈
        (exportMetricsForHost (w.metricResp idx)
          (dir ++ "/hosts/" ++ host.hostName) host.hostID).1) ∧
      filesWritten (exportMetricsForHost (w.metricResp idx)
          (dir ++ "/hosts/" ++ host.hostName) host.hostID).1 = [] := by
    rcases hm with hm | ⟨raw, hm⟩
    · exact ⟨by simp [hm, exportMetricsForHost],
             ⟨"Ошибка при получении метрик для хоста " ++ host.hostID,
              by simp [hm, exportMetricsForHost]⟩,
             by simp [hm, exportMetricsForHost, filesWritten]⟩
    · exact ⟨by simp [hm, exportMetricsForHost],
             ⟨"Ошибка при разборе метрик хоста " ++ host.hostID,
              by simp [hm, exportMetricsForHost]⟩,
             by simp [hm, exportMetricsForHost, filesWritten]⟩
  obtain ⟨hpair, hlog, hnofile⟩ := hmfx
  have hcont : (exportMetricsForHost (w.metricResp idx)
      (dir ++ "/hosts/" ++ host.hostName) host.hostID).2 = SubOutcome.cont := by
    rw [hpair]
  have hproc : processHost w dir idx item =
      ([Effect.mkdirAll (dir ++ "/hosts/" ++ host.hostName),
        Effect.writeFile (dir ++ "/hosts/" ++ host.hostName ++ "/host.xml")] ++
       (exportMetricsForHost (w.metricResp idx)
          (dir ++ "/hosts/" ++ host.hostName) host.hostID).1 ++
       (exportTriggersForHost (w.trigResp idx)
          (dir ++ "/hosts/" ++ host.hostName) host.hostID).1,
       (exportTriggersForHost (w.trigResp idx)
          (dir ++ "/hosts/" ++ host.hostName) host.hostID).2) := by
    simp [processHost, hp, hcont]
  refine ⟨hlog, hcont, ?_, hproc, ?_⟩
  · rw [hproc]
    simp only [filesWritten, List.filterMap_append] at hnofile ⊢
    rw [hnofile]
    intro hmem
    have hxml : dir ++ "/hosts/" ++ host.hostName ++ "/host.xml" ≠
        dir ++ "/hosts/" ++ host.hostName ++ "/metrics.json" :=
      string_append_ne (by decide)
    have htrig : dir ++ "/hosts/" ++ host.hostName ++ "/triggers.json" ≠
        dir ++ "/hosts/" ++ host.hostName ++ "/metrics.json" :=
      string_append_ne (by decide)
    rcases exportTriggersForHost_files (w.trigResp idx)
        (dir ++ "/hosts/" ++ host.hostName) host.hostID with hf | hf <;>
      rw [show filesWritten (exportTriggersForHost (w.trigResp idx)
            (dir ++ "/hosts/" ++ host.hostName) host.hostID).1 =
          List.filterMap (fun e => match e with
            | Effect.writeFile p => some p
            | _ => none)
          (exportTriggersForHost (w.trigResp idx)
            (dir ++ "/hosts/" ++ host.hostName) host.hostID).1 from rfl] at hf <;>
      rw [hf] at hmem <;>
      simp [filesWritten] at hmem
    · exact hxml.symm hmem
    · rcases hmem with hmem | hmem
      · exact hxml.symm hmem
      · exact htrig.symm hmem
  · intro rest hcont2
    simp [loopHosts, hproc, hcont2]

/-- A world used to witness the metric-failure behavior: metric fetches
fail at transport, trigger fetches decode to a null result. -/
def worldC4 : World :=
  ⟨HttpOutcome.transportError,
   fun _ => HttpOutcome.transportError,
   fun _ => HttpOutcome.response "tr" (some nullResultResponse)⟩

/-- C4 witness: with a transport failure on the metric fetch, the
per-host step writes no `metrics.json` and the metric step returns
`cont`. -/
theorem C4_metric_failure_nonfatal_witness :
    ("out" ++ "/hosts/" ++ sampleHost.hostName ++ "/metrics.json") ∉
        filesWritten (processHost worldC4 "out" 0 sampleHostItem).1 ∧
    (exportMetricsForHost (worldC4.metricResp 0)
        ("out" ++ "/hosts/" ++ sampleHost.hostName) sampleHost.hostID).2 =
      SubOutcome.cont := by
  have H := C4_metric_failure_nonfatal worldC4 "out" 0 sampleHostItem sampleHost
    rfl (Or.inl rfl)
  exact ⟨H.2.2.1, H.2.1⟩

/-- A metric response on which the fetch and decode succeed: the body
decodes, the result is an array, and every item projects (the success
case of §4.3, covering the empty array). -/
def goodMetricResp (o : HttpOutcome) : Prop :=
  ∃ raw r items, o = HttpOutcome.response raw (some r) ∧ r.result = Json.arr items ∧
    (optionMapList projectMetric items).isSome = true

/-- A trigger response on which the fetch and decode succeed: the result
is either null (the skip case) or an array whose items all project. -/
def goodTrigResp (o : HttpOutcome) : Prop :=
  ∃ raw r, o = HttpOutcome.response raw (some r) ∧
    (r.result = Json.null ∨
     ∃ items, r.result = Json.arr items ∧
       (optionMapList projectTrigger items).isSome = true)

/-- Whether a trigger response carries the null result that makes the
fetcher skip writing `triggers.json`. -/
def trigSkips (o : HttpOutcome) : Bool :=
  match o with
  | HttpOutcome.response _ (some r) =>
    match r.result with
    | Json.null => true
    | _ => false
  | _ => false

/-- Display name of a host record, read off its successful projection. -/
def hostNameOf (item : Json) : String :=
  match projectHostItem item with
  | some h => h.hostName
  | none => ""

/-- The files one host's directory receives on a fully successful step:
`host.xml` and `metrics.json` always, `triggers.json` unless the trigger
result was null. -/
def expectedHostFiles (dir : String) (skip : Bool) (nm : String) : List String :=
  [dir ++ "/hosts/" ++ nm ++ "/host.xml", dir ++ "/hosts/" ++ nm ++ "/metrics.json"] ++
    (if skip then [] else [dir ++ "/hosts/" ++ nm ++ "/triggers.json"])

/-- The files a successful run writes for the hosts from position `i`
on. -/
def expectedFilesFrom (w : World) (dir : String) : Nat → List Json → List String
  | _, [] => []
  | i, item :: rest =>
    expectedHostFiles dir (trigSkips (w.trigResp i)) (hostNameOf item) ++
      expectedFilesFrom w dir (i + 1) rest

/-- One host's step under a projectable record and good metric and
trigger responses: it continues, creates exactly its own directory, and
writes exactly the expected files. -/
theorem processHost_good (w : World) (dir : String) (i : Nat) (item : Json)
    (host : Host)
    (hp : projectHostItem item = some host)
    (hm : goodMetricResp (w.metricResp i))
    (ht : goodTrigResp (w.trigResp i)) :
    (processHost w dir i item).2 = SubOutcome.cont ∧
    dirsMade (processHost w dir i item).1 = [dir ++ "/hosts/" ++ host.hostName] ∧
    filesWritten (processHost w dir i item).1 =
      expectedHostFiles dir (trigSkips (w.trigResp i)) host.hostName := by
  obtain ⟨rawm, rm, mitems, hmr, hres, hsome⟩ := hm
  obtain ⟨ms, hms⟩ := Option.isSome_iff_exists.mp hsome
  obtain ⟨rawt, rt, htr, hcase⟩ := ht
  rcases hcase with hnull | ⟨titems, htres, htsome⟩
  · simp [processHost, hp, hmr, htr, exportMetricsForHost, exportTriggersForHost,
      asArr, hres, hms, hnull, filesWritten, dirsMade, expectedHostFiles, trigSkips]
  · obtain ⟨ts, hts⟩ := Option.isSome_iff_exists.mp htsome
    simp [processHost, hp, hmr, htr, exportMetricsForHost, exportTriggersForHost,
      asArr, hres, hms, htres, hts, filesWritten, dirsMade, expectedHostFiles, trigSkips]

/-- The loop over the remaining hosts under good per-host responses:
continues, makes one directory per host in order, and writes exactly the
expected files. -/
theorem loopHosts_good (w : World) (dir : String) :
    ∀ (items : List Json) (i0 : Nat),
      (∀ item ∈ items, (projectHostItem item).isSome = true) →
      (∀ k, k < items.length → goodMetricResp (w.metricResp (i0 + k))) →
      (∀ k, k < items.length → goodTrigResp (w.trigResp (i0 + k))) →
      (loopHosts w dir i0 items).2 = SubOutcome.cont ∧
      dirsMade (loopHosts w dir i0 items).1 =
        items.map (fun it => dir ++ "/hosts/" ++ hostNameOf it) ∧
      filesWritten (loopHosts w dir i0 items).1 = expectedFilesFrom w dir i0 items
  | [], i0, _, _, _ => by simp [loopHosts, dirsMade, filesWritten, expectedFilesFrom]
  | item :: rest, i0, hh, hm, ht => by
    obtain ⟨host, hp⟩ :=
      Option.isSome_iff_exists.mp (hh item (List.mem_cons_self item rest))
    have hm0 : goodMetricResp (w.metricResp i0) := by
      have := hm 0 (by simp)
      simpa using this
    have ht0 : goodTrigResp (w.trigResp i0) := by
      have := ht 0 (by simp)
      simpa using this
    obtain ⟨P1, P2, P3⟩ := processHost_good w dir i0 item host hp hm0 ht0
    obtain ⟨L1, L2, L3⟩ := loopHosts_good w dir rest (i0 + 1)
      (fun it hit => hh it (List.mem_cons_of_mem item hit))
      (fun k hk => by
        have := hm (k + 1) (by simpa using Nat.succ_lt_succ hk)
        simpa [Nat.add_assoc, Nat.add_comm 1 k] using this)
      (fun k hk => by
        have := ht (k + 1) (by simpa using Nat.succ_lt_succ hk)
        simpa [Nat.add_assoc, Nat.add_comm 1 k] using this)
    have hname : hostNameOf item = host.hostName := by simp [hostNameOf, hp]
    refine ⟨?_, ?_, ?_⟩
    · simp [loopHosts, P1, L1]
    · simp only [loopHosts, P1]
      simp only [dirsMade, List.filterMap_append] at P2 L2 ⊢
      rw [P2, L2]
      simp [hname]
    · simp only [loopHosts, P1]
      simp only [filesWritten, List.filterMap_append] at P3 L3 ⊢
      rw [P3, L3]
      simp [expectedFilesFrom, hname]

/-- C2: on a run whose host enumeration decodes to N records that all
project, and whose per-host metric and trigger fetches all succeed, the
run ends normally, creates exactly one directory per host in order, and
writes per host `host.xml` and `metrics.json` always (the metric array
may be empty) and `triggers.json` exactly when the trigger result was
not null. -/
theorem C2_run_layout (w : World) (dir raw : String) (r : ZabbixResponse)
    (items : List Json)
    (hw : w.hostResp = HttpOutcome.response raw (some r))
    (hr : r.result = Json.arr items)
    (hne : items ≠ [])
    (hh : ∀ item ∈ items, (projectHostItem item).isSome = true)
    (hm : ∀ k, k < items.length → goodMetricResp (w.metricResp k))
    (htg : ∀ k, k < items.length → goodTrigResp (w.trigResp k)) :
    (exportHostsWithDetails w dir).2 = Outcome.ok ∧
    dirsMade (exportHostsWithDetails w dir).1 =
      items.map (fun it => dir ++ "/hosts/" ++ hostNameOf it) ∧
    filesWritten (exportHostsWithDetails w dir).1 = expectedFilesFrom w dir 0 items := by
  cases items with
  | nil => exact absurd rfl hne
  | cons a tl =>
    obtain ⟨L1, L2, L3⟩ := loopHosts_good w dir (a :: tl) 0 hh
      (by simpa using hm) (by simpa using htg)
    refine ⟨?_, ?_, ?_⟩
    · simp [exportHostsWithDetails, hw, hr, L1]
    · simp [exportHostsWithDetails, hw, hr, L1, dirsMade,
        List.filterMap_append] at L2 ⊢
      rw [L2]
    · simp [exportHostsWithDetails, hw, hr, L1, filesWritten,
        List.filterMap_append] at L3 ⊢
      rw [L3]

/-- One well-formed decoded item record. -/
def metricItemC2 : Json :=
  Json.obj [("itemid", Json.str "23296"), ("name", Json.str "CPU load"),
            ("key_", Json.str "system.cpu.load"), ("lastvalue", Json.str "0.25")]

/-- One well-formed decoded trigger record. -/
def trigItemC2 : Json :=
  Json.obj [("triggerid", Json.str "13491"), ("description", Json.str "high load"),
            ("priority", Json.str "4"), ("status", Json.str "0")]

/-- A world with two hosts; the first gets an empty metric list and a
null trigger result, the second a one-element metric list and one
trigger. -/
def worldC2 : World :=
  ⟨HttpOutcome.response "hosts"
     (some ⟨"2.0", Json.arr [sampleHostItem, Json.obj twoIfaceRecord], ⟨0, "", ""⟩, 1⟩),
   fun k =>
     match k with
     | 0 => HttpOutcome.response "m0" (some ⟨"2.0", Json.arr [], ⟨0, "", ""⟩, 1⟩)
     | _ => HttpOutcome.response "m1"
         (some ⟨"2.0", Json.arr [metricItemC2], ⟨0, "", ""⟩, 1⟩),
   fun k =>
     match k with
     | 0 => HttpOutcome.response "t0" (some ⟨"2.0", Json.null, ⟨0, "", ""⟩, 1⟩)
     | _ => HttpOutcome.response "t1"
         (some ⟨"2.0", Json.arr [trigItemC2], ⟨0, "", ""⟩, 1⟩)⟩

/-- C2 witness: the two-host world ends normally, creates the two host
directories in order, and writes `host.xml` and `metrics.json` for both
hosts (the first host's metric list being empty) but `triggers.json`
only for the second host, whose trigger result was not null. -/
theorem C2_run_layout_witness :
    (exportHostsWithDetails worldC2 "out").2 = Outcome.ok ∧
    dirsMade (exportHostsWithDetails worldC2 "out").1 =
      ["out" ++ "/hosts/" ++ "alpha", "out" ++ "/hosts/" ++ "beta"] ∧
    filesWritten (exportHostsWithDetails worldC2 "out").1 =
      ["out" ++ "/hosts/" ++ "alpha" ++ "/host.xml",
       "out" ++ "/hosts/" ++ "alpha" ++ "/metrics.json",
       "out" ++ "/hosts/" ++ "beta" ++ "/host.xml",
       "out" ++ "/hosts/" ++ "beta" ++ "/metrics.json",
       "out" ++ "/hosts/" ++ "beta" ++ "/triggers.json"] := by
  have H := C2_run_layout worldC2 "out" "hosts"
    ⟨"2.0", Json.arr [sampleHostItem, Json.obj twoIfaceRecord], ⟨0, "", ""⟩, 1⟩
    [sampleHostItem, Json.obj twoIfaceRecord] rfl rfl (by simp) (by decide)
    (by
      intro k hk
      rcases k with _ | _ | k
      · exact ⟨"m0", _, [], rfl, rfl, rfl⟩
      · exact ⟨"m1", _, [metricItemC2], rfl, rfl, rfl⟩
      · exact absurd hk (by simp))
    (by
      intro k hk
      rcases k with _ | _ | k
      · exact ⟨"t0", _, rfl, Or.inl rfl⟩
      · exact ⟨"t1", _, rfl, Or.inr ⟨[trigItemC2], rfl, rfl⟩⟩
      · exact absurd hk (by simp))
  exact ⟨H.1, H.2.1.trans (by rfl), H.2.2.trans (by rfl)⟩

end ZbxExport
